import Mathlib

/-!
Shallow embedding of the networked environmental monitor
(`sensor_manager.c`, `web_server.c`, `main.c`): a Zephyr application with a
sensor-sampling thread publishing into a mutex-guarded shared reading and a
web-server thread serving that reading over HTTP.

Machine `int` fields are modelled as `Int`; the int32 range is stated as an
explicit hypothesis where it matters.  `snprintf` into the 256-byte stack
buffer is modelled as formatting followed by truncation to 255 characters
(255 payload bytes plus the terminating NUL).
-/

/-- One Zephyr `struct sensor_value`: integer part `val1` and fractional
micro-units part `val2` (both `int32_t` in the source). -/
@[ext]
structure SensorValue where
  val1 : Int
  val2 : Int
deriving DecidableEq

/-- `struct sensor_reading` from `sensor_manager.h`: temperature, pressure
and humidity, each a `SensorValue`. -/
@[ext]
structure SensorReading where
  temp : SensorValue
  press : SensorValue
  humidity : SensorValue
deriving DecidableEq

/-- The zero-initialised global `struct sensor_reading latest_reading;`
defined in `main.c` (C globals are zero-initialised). -/
def defaultReading : SensorReading := ⟨⟨0, 0⟩, ⟨0, 0⟩, ⟨0, 0⟩⟩

/-- The int32_t range of a C `int` field. -/
def int32Range (i : Int) : Prop := -2147483648 ≤ i ∧ i < 2147483648

instance (i : Int) : Decidable (int32Range i) := by
  unfold int32Range; infer_instance

/-! ## Decimal formatting (the `%d` and `%06d` conversions of `snprintf`) -/

/-- The ASCII character of a decimal digit `d < 10`. -/
def digitChar (d : Nat) : Char := Char.ofNat (48 + d)

/-- Little-endian decimal digits of `n`, with explicit fuel (the fuel `n`
itself always suffices). -/
def natDigitsAux : Nat → Nat → List Nat
  | 0, _ => []
  | fuel + 1, n => if n = 0 then [] else n % 10 :: natDigitsAux fuel (n / 10)

/-- Little-endian decimal digits of `n` (empty for `n = 0`). -/
def natDigits (n : Nat) : List Nat := natDigitsAux n n

/-- The decimal numeral of a natural number, as printed by `%u` / the
magnitude part of `%d`. -/
def natDecChars (n : Nat) : List Char :=
  if n = 0 then ['0'] else (natDigits n).reverse.map digitChar

/-- `printf "%d"` on an integer: optional minus sign, then the decimal
numeral of the magnitude. -/
def intDecChars (i : Int) : List Char :=
  if i < 0 then '-' :: natDecChars i.natAbs else natDecChars i.toNat

/-- Zero padding on the left up to width `w`. -/
def leftPad0 (w : Nat) (s : List Char) : List Char :=
  List.replicate (w - s.length) '0' ++ s

/-- `printf "%06d"`: zero-pad to field width 6; for a negative value the
sign comes before the padding (`-5` prints as `-00005`). -/
def intDec06Chars (i : Int) : List Char :=
  if i < 0 then '-' :: leftPad0 5 (natDecChars i.natAbs)
  else leftPad0 6 (natDecChars i.toNat)

/-! ## The HTTP responses built by `handle_client` (`web_server.c`) -/

/-- Fixed text of the 200 response before the temperature number
(format string of the `snprintf` in `handle_client`, lines 33-41). -/
def okLit1 : List Char :=
  ("HTTP/1.1 200 OK\r\nContent-Type: text/html\r\n\r\n" ++
   "<html><head><title>Weather Station</title></head>" ++
   "<body><h1>Weather Station</h1><p>Temperature: ").data

/-- Fixed text between the temperature and pressure numbers. -/
def okLit2 : List Char := " C</p><p>Pressure: ".data

/-- Fixed text between the pressure and humidity numbers. -/
def okLit3 : List Char := " kPa</p><p>Humidity: ".data

/-- Fixed text after the humidity number (`%%` prints as `%`). -/
def okLit4 : List Char := " %</p></body></html>".data

/-- The untruncated output of the `snprintf` format string in
`handle_client` on reading `r`: each field rendered as `%d.%06d`. -/
def okChars (r : SensorReading) : List Char :=
  okLit1 ++ (intDecChars r.temp.val1 ++ ('.' ::
    (intDec06Chars r.temp.val2 ++ (okLit2 ++
      (intDecChars r.press.val1 ++ ('.' ::
        (intDec06Chars r.press.val2 ++ (okLit3 ++
          (intDecChars r.humidity.val1 ++ ('.' ::
            (intDec06Chars r.humidity.val2 ++ okLit4)))))))))))

/-- The full (untruncated) 200 response as a string. -/
def okResponseFull (r : SensorReading) : String := ⟨okChars r⟩

/-- What `snprintf(response, 256, ...)` actually leaves in the buffer and
`send(client, response, strlen(response), 0)` sends: at most 255
characters (256 bytes minus the terminating NUL). -/
def okResponse (r : SensorReading) : String := ⟨(okChars r).take 255⟩

/-- The fixed 503 response sent on lock timeout (`web_server.c` line 26). -/
def errorResponse : String := "HTTP/1.1 503 Service Unavailable\r\n\r\n"

/-! ## `handle_client` as a trace of network operations -/

/-- An operation `handle_client` performs on its accepted connection. -/
inductive NetEvent where
  | send (bytes : String)
  | close
deriving DecidableEq

/-- `handle_client` (`web_server.c` lines 15-48), as the sequence of
operations it performs on the connection.  `lockOk` is whether
`k_mutex_lock(&data_mutex, K_MSEC(500))` returned 0; `latest` is the value
of `latest_reading` copied under the lock; `_sendRet` is the return value
of `send`, which the source discards (no branch depends on it). -/
def handle_client (lockOk : Bool) (latest : SensorReading) (_sendRet : Int) :
    List NetEvent :=
  if lockOk then
    [NetEvent.send (okResponse latest), NetEvent.close]
  else
    [NetEvent.send errorResponse, NetEvent.close]

/-- Helper: recognise the close event. -/
def isClose : NetEvent → Bool
  | NetEvent.close => true
  | _ => false

/-! ## The sensor thread (`sensor_manager.c`) -/

/-- An observable action of `sensor_thread`. -/
inductive SamplerEvent where
  | logError (msg : String)
  | publish (r : SensorReading)
  | sleep
deriving DecidableEq

/-- Effect of one iteration of the `while (1)` loop in `sensor_thread`
(lines 99-111) on `latest_reading`: the freshly built `data` is stored only
if `k_mutex_lock(&data_mutex, K_MSEC(500))` succeeded. -/
def sensor_cycle (lockOk : Bool) (sample latest : SensorReading) :
    SensorReading :=
  if lockOk then sample else latest

/-- Observable actions of one iteration of the `sensor_thread` loop:
publish under the lock (when acquired) and then `k_sleep(K_SECONDS(5))`. -/
def sensor_cycle_events (lockOk : Bool) (sample : SensorReading) :
    List SamplerEvent :=
  if lockOk then [SamplerEvent.publish sample, SamplerEvent.sleep]
  else [SamplerEvent.sleep]

/-- `sensor_thread` (lines 90-112) run over a finite prefix of its loop:
`deviceReady` is the result of `device_is_ready(bme280)`; each element of
`cycles` gives one iteration's lock outcome and the sample the sensor calls
produced.  Returns the actions taken and the final `latest_reading`. -/
def sensor_thread_run (deviceReady : Bool)
    (cycles : List (Bool × SensorReading)) (init : SensorReading) :
    List SamplerEvent × SensorReading :=
  if deviceReady then
    (cycles.flatMap fun c => sensor_cycle_events c.1 c.2,
     cycles.foldl (fun latest c => sensor_cycle c.1 c.2 latest) init)
  else
    ([SamplerEvent.logError "BME280 device not ready"], init)

/-! ## The web-server thread (`web_server.c` lines 50-75) -/

/-- Environment of one iteration of the accept loop: the value `accept`
returned, and (used only when the accept succeeded) the lock outcome,
`latest_reading` value and `send` return seen by `handle_client`. -/
structure ServerIter where
  acceptRet : Int
  lockOk : Bool
  latest : SensorReading
  sendRet : Int
deriving DecidableEq

/-- An observable action of `web_server_thread`. -/
inductive SrvEvent where
  | sysSocket (ret : Int)
  | sysBind (ret : Int)
  | sysListen (ret : Int)
  | logInfo (msg : String)
  | acceptCall (ret : Int)
  | clientSend (client : Int) (bytes : String)
  | clientClose (client : Int)
deriving DecidableEq

/-- Tag the connection operations of `handle_client` with the client fd. -/
def clientEvents (client : Int) (evs : List NetEvent) : List SrvEvent :=
  evs.map fun e =>
    match e with
    | NetEvent.send b => SrvEvent.clientSend client b
    | NetEvent.close => SrvEvent.clientClose client

/-- The `while (1)` accept loop of `web_server_thread` (lines 66-74) over a
finite prefix of iterations: each iteration calls `accept`, and iff the
result is non-negative, runs `handle_client` on it to completion before the
next `accept`. -/
def web_server_trace : List ServerIter → List SrvEvent
  | [] => []
  | it :: rest =>
    SrvEvent.acceptCall it.acceptRet ::
      ((if 0 ≤ it.acceptRet then
          clientEvents it.acceptRet
            (handle_client it.lockOk it.latest it.sendRet)
        else []) ++ web_server_trace rest)

/-- `web_server_thread` (lines 50-75): calls `socket`, `bind` and `listen`
(recording their results, on which the source never branches), logs, and
enters the accept loop. -/
def web_server_thread (socketRet bindRet listenRet : Int)
    (iters : List ServerIter) : List SrvEvent :=
  SrvEvent.sysSocket socketRet :: SrvEvent.sysBind bindRet ::
    SrvEvent.sysListen listenRet ::
      SrvEvent.logInfo "Web server listening on port 80" ::
        web_server_trace iters

/-- Helper: recognise an accept event in the server trace. -/
def isAcceptCall : SrvEvent → Bool
  | SrvEvent.acceptCall _ => true
  | _ => false

/-! ## Concrete readings used by the spec's examples -/

/-- The example reading from the spec's testable properties. -/
def r0 : SensorReading := ⟨⟨23, 456000⟩, ⟨101, 325000⟩, ⟨45, 120000⟩⟩

/-- An extreme but type-correct reading: every int32 field at `INT32_MIN`.
The sensor driver is an opaque external, and the design publishes channel
values without validation, so nothing in the program rules this out. -/
def rBad : SensorReading :=
  ⟨⟨-2147483648, -2147483648⟩, ⟨-2147483648, -2147483648⟩,
   ⟨-2147483648, -2147483648⟩⟩

/-- A sample reading used to exercise the interleaving model. -/
def vSample : SensorReading := ⟨⟨1, 2⟩, ⟨3, 4⟩, ⟨5, 6⟩⟩

/-! ## Parsing the decimal pairs back out of the body (spec round-trip) -/

/-- Value of a little-endian decimal digit list. -/
def ofDigitsLE (L : List Nat) : Nat := L.foldr (fun d r => d + 10 * r) 0

/-- Read a big-endian decimal digit string as a natural number. -/
def parseNat (cs : List Char) : Nat :=
  cs.foldl (fun a c => a * 10 + (c.toNat - 48)) 0

/-- Consume an expected literal from the front of the input, returning the
remainder. -/
def dropLit : List Char → List Char → Option (List Char)
  | [], s => some s
  | _ :: _, [] => none
  | c :: cs, d :: ds => if c = d then dropLit cs ds else none

/-- Parse digits, a dot, and exactly six fractional digits; `neg` records
a minus sign already consumed. -/
def parsePairAux (neg : Bool) (s1 : List Char) : Option (Int × Int × List Char) :=
  let ds := s1.takeWhile Char.isDigit
  let s2 := s1.dropWhile Char.isDigit
  let t := s2.tail
  let fs := t.take 6
  if ds ≠ [] ∧ s2.head? = some '.' ∧ fs.length = 6 ∧ fs.all Char.isDigit = true
  then
    some (if neg then -(parseNat ds : Int) else (parseNat ds : Int),
          (parseNat fs : Int), t.drop 6)
  else none

/-- Parse one `%d.%06d`-formatted decimal pair from the front of the
input, returning the integer part, fractional part and remainder. -/
def parsePair (s : List Char) : Option (Int × Int × List Char) :=
  if s.head? = some '-' then parsePairAux true s.tail else parsePairAux false s

/-- Extract the three decimal pairs from a 200-response body: expect the
fixed skeleton of the page and the three `%d.%06d` fields in order
(temperature, pressure, humidity), requiring the input to end with the
page's closing text. -/
def parseBody (s : List Char) : Option SensorReading :=
  (dropLit okLit1 s).bind fun s1 =>
  (parsePair s1).bind fun x1 =>
  (dropLit okLit2 x1.2.2).bind fun s3 =>
  (parsePair s3).bind fun x2 =>
  (dropLit okLit3 x2.2.2).bind fun s5 =>
  (parsePair s5).bind fun x3 =>
  (dropLit okLit4 x3.2.2).bind fun s7 =>
  if s7 = [] then
    some ⟨⟨x1.1, x1.2.1⟩, ⟨x2.1, x2.2.1⟩, ⟨x3.1, x3.2.1⟩⟩
  else none

/-! ## Interleaving model of the mutex-protected shared reading

The writer (`sensor_thread`) performs `latest_reading = data` and the
reader (`handle_client`) performs `data = latest_reading`, both inside
`k_mutex_lock`/`k_mutex_unlock`.  The struct copies are modelled at field
granularity — three separate writes / reads — so that torn mixes are
representable, and the mutex is modelled by an owner field: a thread's
acquire step is enabled only when the mutex is free (a timed-out
acquisition is simply the absence of the step). -/

/-- The two threads contending for `data_mutex`. -/
inductive Tid where
  | writer
  | reader
deriving DecidableEq

/-- Global state of the interleaving model: `latest` is `latest_reading`;
`owner` the holder of `data_mutex`; `wpc`/`wval` the writer's progress and
pending sample inside its critical section; `rpc`/`racc` the reader's
progress and partial copy; `lastPub` is a ghost variable recording the last
completely published reading (initially the zero default). -/
structure MState where
  latest : SensorReading
  owner : Option Tid
  wpc : Nat
  wval : SensorReading
  rpc : Nat
  racc : SensorReading
  lastPub : SensorReading
deriving DecidableEq

/-- Initial state: `latest_reading` zero-initialised, mutex free. -/
def mInit : MState :=
  ⟨defaultReading, none, 0, defaultReading, 0, defaultReading, defaultReading⟩

/-- One interleaved step.  Writer: acquire with a fresh sample `v`, write
the three fields of `latest_reading` one at a time, release (recording the
publish in the ghost `lastPub`).  Reader: acquire, copy the three fields
one at a time, release. -/
inductive MStep : MState → MState → Prop where
  | wAcquire (s : MState) (v : SensorReading) :
      s.owner = none →
      MStep s { s with owner := some Tid.writer, wpc := 0, wval := v }
  | wTemp (s : MState) :
      s.owner = some Tid.writer → s.wpc = 0 →
      MStep s { s with latest := { s.latest with temp := s.wval.temp },
                       wpc := 1 }
  | wPress (s : MState) :
      s.owner = some Tid.writer → s.wpc = 1 →
      MStep s { s with latest := { s.latest with press := s.wval.press },
                       wpc := 2 }
  | wHum (s : MState) :
      s.owner = some Tid.writer → s.wpc = 2 →
      MStep s { s with latest := { s.latest with humidity := s.wval.humidity },
                       wpc := 3 }
  | wRelease (s : MState) :
      s.owner = some Tid.writer → s.wpc = 3 →
      MStep s { s with owner := none, lastPub := s.wval }
  | rAcquire (s : MState) :
      s.owner = none →
      MStep s { s with owner := some Tid.reader, rpc := 0 }
  | rTemp (s : MState) :
      s.owner = some Tid.reader → s.rpc = 0 →
      MStep s { s with racc := { s.racc with temp := s.latest.temp },
                       rpc := 1 }
  | rPress (s : MState) :
      s.owner = some Tid.reader → s.rpc = 1 →
      MStep s { s with racc := { s.racc with press := s.latest.press },
                       rpc := 2 }
  | rHum (s : MState) :
      s.owner = some Tid.reader → s.rpc = 2 →
      MStep s { s with racc := { s.racc with humidity := s.latest.humidity },
                       rpc := 3 }
  | rRelease (s : MState) :
      s.owner = some Tid.reader → s.rpc = 3 →
      MStep s { s with owner := none }

/-- States reachable from the initial state by interleaved steps. -/
inductive MReach : MState → Prop where
  | init : MReach mInit
  | step {s s' : MState} : MReach s → MStep s s' → MReach s'

/-- Inductive invariant of the interleaving model: outside the writer's
critical section `latest_reading` equals the last fully published reading;
inside it, exactly the already-written fields are new; and the reader's
partial copy always consists of fields of the last published reading. -/
def MInv (s : MState) : Prop :=
  (s.owner = some Tid.writer →
    (s.wpc = 0 → s.latest = s.lastPub) ∧
    (s.wpc = 1 → s.latest = { s.lastPub with temp := s.wval.temp }) ∧
    (s.wpc = 2 → s.latest = { s.wval with humidity := s.lastPub.humidity }) ∧
    (s.wpc = 3 → s.latest = s.wval) ∧ s.wpc ≤ 3) ∧
  (s.owner ≠ some Tid.writer → s.latest = s.lastPub) ∧
  (s.owner = some Tid.reader →
    (s.rpc = 1 → s.racc.temp = s.lastPub.temp) ∧
    (s.rpc = 2 → s.racc.temp = s.lastPub.temp ∧
                 s.racc.press = s.lastPub.press) ∧
    (s.rpc = 3 → s.racc = s.lastPub))

/-! # Theorems -/

/-! ## Claims about `handle_client` -/

/-- C1: when the bounded 500ms acquisition of `data_mutex` times out,
`handle_client` sends exactly the bytes
`"HTTP/1.1 503 Service Unavailable\r\n\r\n"` (status line plus blank line,
no body, no Content-Type header), closes the connection, and returns —
independently of `latest_reading` (never read) and of the `send` result;
in particular no 200 response is constructed. -/
theorem handle_client_timeout_503 :
    ∀ (latest : SensorReading) (sendRet : Int),
      handle_client false latest sendRet =
        [NetEvent.send "HTTP/1.1 503 Service Unavailable\r\n\r\n",
         NetEvent.close] := by
  intro latest sendRet
  rfl

/-- C2: `handle_client` closes the connection exactly once on every exit
path — both the 200 path and the lock-timeout 503 path — and the close is
its last action before returning, regardless of the `send` result (which
the source discards). -/
theorem handle_client_always_closes :
    ∀ (lockOk : Bool) (latest : SensorReading) (sendRet : Int),
      (handle_client lockOk latest sendRet).countP isClose = 1 ∧
      (handle_client lockOk latest sendRet).getLast? = some NetEvent.close := by
  intro lockOk latest sendRet
  cases lockOk <;> simp [handle_client, isClose]

/-! ## Claims about `sensor_thread` -/

/-- C4: when the writer-side bounded lock acquisition times out,
`latest_reading` is left completely unchanged and the iteration proceeds
straight to the `k_sleep` without retrying the publish. -/
theorem sensor_cycle_timeout_skips :
    ∀ sample latest : SensorReading,
      sensor_cycle false sample latest = latest ∧
      sensor_cycle_events false sample = [SamplerEvent.sleep] := by
  intro sample latest
  exact ⟨rfl, rfl⟩

set_option maxRecDepth 20000 in
/-- C5: if `device_is_ready(bme280)` reports not-ready at startup,
`sensor_thread` logs one error and returns before any sampling cycle, so
`latest_reading` keeps its zero-valued default forever, no matter what the
loop environment would have been; meanwhile `handle_client` still serves
the 200 response formatted from that default (all fields `0.000000`). -/
theorem sensor_not_ready_default_served :
    ∀ (cycles : List (Bool × SensorReading)) (sendRet : Int),
      sensor_thread_run false cycles defaultReading =
        ([SamplerEvent.logError "BME280 device not ready"], defaultReading) ∧
      handle_client true defaultReading sendRet =
        [NetEvent.send
          ("HTTP/1.1 200 OK\r\nContent-Type: text/html\r\n\r\n" ++
           "<html><head><title>Weather Station</title></head>" ++
           "<body><h1>Weather Station</h1>" ++
           "<p>Temperature: 0.000000 C</p>" ++
           "<p>Pressure: 0.000000 kPa</p>" ++
           "<p>Humidity: 0.000000 %</p>" ++
           "</body></html>"),
         NetEvent.close] := by
  intro cycles sendRet
  have hd : okResponse defaultReading =
      "HTTP/1.1 200 OK\r\nContent-Type: text/html\r\n\r\n" ++
      "<html><head><title>Weather Station</title></head>" ++
      "<body><h1>Weather Station</h1>" ++
      "<p>Temperature: 0.000000 C</p>" ++
      "<p>Pressure: 0.000000 kPa</p>" ++
      "<p>Humidity: 0.000000 %</p>" ++
      "</body></html>" := by decide
  refine ⟨rfl, ?_⟩
  rw [show handle_client true defaultReading sendRet =
    [NetEvent.send (okResponse defaultReading), NetEvent.close] from rfl, hd]

/-! ## Claims about `web_server_thread` -/

/-- C9: the accept loop is strictly sequential.  A negative `accept`
result is ignored: the next trace event is directly the next `accept`, and
`handle_client` is not invoked.  A non-negative result is handled
synchronously: the connection's full `handle_client` event sequence —
ending with its close — appears in the trace before any further `accept`
event. -/
theorem web_server_sequential :
    ∀ (it : ServerIter) (rest : List ServerIter),
      (it.acceptRet < 0 →
        web_server_trace (it :: rest) =
          SrvEvent.acceptCall it.acceptRet :: web_server_trace rest) ∧
      (0 ≤ it.acceptRet →
        web_server_trace (it :: rest) =
          SrvEvent.acceptCall it.acceptRet ::
            (clientEvents it.acceptRet
               (handle_client it.lockOk it.latest it.sendRet) ++
             web_server_trace rest) ∧
        (clientEvents it.acceptRet
           (handle_client it.lockOk it.latest it.sendRet)).getLast? =
          some (SrvEvent.clientClose it.acceptRet) ∧
        ∀ e ∈ clientEvents it.acceptRet
           (handle_client it.lockOk it.latest it.sendRet),
          isAcceptCall e = false) := by
  intro it rest
  constructor
  · intro hneg
    simp [web_server_trace, not_le.mpr hneg]
  · intro hpos
    refine ⟨by simp [web_server_trace, hpos], ?_, ?_⟩
    · cases h : it.lockOk <;>
        simp [handle_client, clientEvents, h]
    · intro e he
      cases h : it.lockOk <;>
        simp [handle_client, clientEvents, h] at he <;>
        rcases he with he | he <;> simp [he, isAcceptCall]

/-- Closed instance of the sequential-accept-loop theorem: one successful
accept (fd 3) is fully handled — response sent, connection closed — before
the trace ends, and a negative accept (-1) contributes only its accept
event. -/
theorem web_server_sequential_witness :
    ((-1 : Int) < 0 ∧
      web_server_trace [⟨-1, true, r0, 0⟩] = [SrvEvent.acceptCall (-1)]) ∧
    (0 ≤ (3 : Int) ∧
      web_server_trace [⟨3, true, r0, 0⟩] =
        [SrvEvent.acceptCall 3, SrvEvent.clientSend 3 (okResponse r0),
         SrvEvent.clientClose 3]) := by
  constructor
  · exact ⟨by decide,
      (web_server_sequential ⟨-1, true, r0, 0⟩ []).1 (by decide)⟩
  · refine ⟨by decide, ?_⟩
    have h := (web_server_sequential ⟨3, true, r0, 0⟩ []).2 (by decide)
    rw [h.1]
    rfl

/-- C10: `web_server_thread` never observes the results of `socket`,
`bind` or `listen`: for every outcome triple the trace after those three
calls is identical (so a failed bind of port 80 is silent), and it always
proceeds into the accept loop. -/
theorem web_server_ignores_setup_results :
    ∀ (s b l s' b' l' : Int) (iters : List ServerIter),
      (web_server_thread s b l iters).drop 3 =
        (web_server_thread s' b' l' iters).drop 3 ∧
      (web_server_thread s b l iters).drop 4 = web_server_trace iters := by
  intro s b l s' b' l' iters
  exact ⟨rfl, rfl⟩

/-! ## Correctness of the decimal formatting -/

theorem ofDigitsLE_nil : ofDigitsLE [] = 0 := rfl

theorem ofDigitsLE_cons (d : Nat) (L : List Nat) :
    ofDigitsLE (d :: L) = d + 10 * ofDigitsLE L := rfl

theorem natDigitsAux_lt_ten :
    ∀ fuel n d : Nat, d ∈ natDigitsAux fuel n → d < 10 := by
  intro fuel
  induction fuel with
  | zero => intro n d hd; simp [natDigitsAux] at hd
  | succ fuel ih =>
    intro n d hd
    by_cases h : n = 0
    · simp [natDigitsAux, h] at hd
    · simp only [natDigitsAux, h, if_false, List.mem_cons] at hd
      rcases hd with hd | hd
      · omega
      · exact ih _ _ hd

theorem ofDigitsLE_natDigitsAux :
    ∀ fuel n : Nat, n ≤ fuel → ofDigitsLE (natDigitsAux fuel n) = n := by
  intro fuel
  induction fuel with
  | zero => intro n h; interval_cases n; rfl
  | succ fuel ih =>
    intro n h
    by_cases h0 : n = 0
    · simp [natDigitsAux, h0, ofDigitsLE]
    · have hdiv : n / 10 ≤ fuel := by omega
      rw [show natDigitsAux (fuel + 1) n = n % 10 :: natDigitsAux fuel (n / 10)
            from by simp [natDigitsAux, h0],
          ofDigitsLE_cons, ih _ hdiv]
      omega

theorem natDigitsAux_length_le :
    ∀ fuel n k : Nat, n < 10 ^ k → (natDigitsAux fuel n).length ≤ k := by
  intro fuel
  induction fuel with
  | zero => intro n k _; simp [natDigitsAux]
  | succ fuel ih =>
    intro n k h
    by_cases h0 : n = 0
    · simp [natDigitsAux, h0]
    · have hk : k ≠ 0 := by
        intro hk0
        subst hk0
        simp only [pow_zero] at h
        omega
      obtain ⟨k', rfl⟩ : ∃ k', k = k' + 1 := ⟨k - 1, by omega⟩
      have hpow : (10:Nat) ^ (k' + 1) = 10 ^ k' * 10 := pow_succ 10 k'
      have hdiv : n / 10 < 10 ^ k' := by omega
      rw [show natDigitsAux (fuel + 1) n = n % 10 :: natDigitsAux fuel (n / 10)
            from by simp [natDigitsAux, h0]]
      have := ih (n / 10) k' hdiv
      simp only [List.length_cons]
      omega

theorem natDigitsAux_ne_nil (fuel n : Nat) (hf : n ≤ fuel) (h0 : n ≠ 0) :
    natDigitsAux fuel n ≠ [] := by
  cases fuel with
  | zero => omega
  | succ fuel => simp [natDigitsAux, h0]

theorem natDecChars_all_digit (n : Nat) :
    ∀ c ∈ natDecChars n, c.isDigit = true := by
  intro c hc
  unfold natDecChars at hc
  by_cases h : n = 0
  · simp [h] at hc
    subst hc
    rfl
  · rw [if_neg h] at hc
    rcases List.mem_map.mp hc with ⟨d, hd, rfl⟩
    have hd10 : d < 10 := natDigitsAux_lt_ten n n d (List.mem_reverse.mp hd)
    unfold digitChar
    interval_cases d <;> rfl

theorem natDecChars_ne_nil (n : Nat) : natDecChars n ≠ [] := by
  unfold natDecChars
  by_cases h : n = 0
  · simp [h]
  · rw [if_neg h]
    intro hmap
    rcases List.map_eq_nil_iff.mp hmap with hrev
    exact natDigitsAux_ne_nil n n le_rfl h (List.reverse_eq_nil_iff.mp hrev)

theorem parseNat_go (L : List Nat) (hL : ∀ d ∈ L, d < 10) (a : Nat) :
    (L.reverse.map digitChar).foldl (fun x c => x * 10 + (c.toNat - 48)) a =
      a * 10 ^ L.length + ofDigitsLE L := by
  induction L generalizing a with
  | nil => simp [ofDigitsLE]
  | cons d L ih =>
    have hd : d < 10 := hL d (by simp)
    have hL' : ∀ x ∈ L, x < 10 := fun x hx => hL x (by simp [hx])
    have htoNat : (digitChar d).toNat = 48 + d := by
      unfold digitChar; interval_cases d <;> rfl
    simp only [List.reverse_cons, List.map_append, List.foldl_append,
      List.map_cons, List.map_nil, List.foldl_cons, List.foldl_nil,
      List.length_cons, ofDigitsLE_cons]
    rw [ih hL', htoNat]
    have h48 : 48 + d - 48 = d := by omega
    rw [h48, pow_succ]
    ring

theorem parseNat_natDecChars (n : Nat) : parseNat (natDecChars n) = n := by
  by_cases h : n = 0
  · subst h; rfl
  · unfold natDecChars parseNat
    rw [if_neg h]
    rw [parseNat_go (natDigits n)
      (fun d hd => natDigitsAux_lt_ten n n d hd) 0]
    rw [zero_mul, zero_add]
    exact ofDigitsLE_natDigitsAux n n le_rfl

theorem parseNat_cons_zero (cs : List Char) :
    parseNat ('0' :: cs) = parseNat cs := rfl

theorem parseNat_replicate_zero (k : Nat) (cs : List Char) :
    parseNat (List.replicate k '0' ++ cs) = parseNat cs := by
  induction k with
  | zero => rfl
  | succ k ih => rw [List.replicate_succ, List.cons_append, parseNat_cons_zero, ih]

theorem natDecChars_length_le (n k : Nat) (hk : 0 < k) (h : n < 10 ^ k) :
    (natDecChars n).length ≤ k := by
  unfold natDecChars
  by_cases h0 : n = 0
  · simp [h0]; omega
  · rw [if_neg h0]
    simp only [List.length_map, List.length_reverse, natDigits]
    exact natDigitsAux_length_le n n k h

/-! ## The `%06d` field and the pair parser -/

theorem intDec06Chars_nonneg (v2 : Int) (h0 : 0 ≤ v2) :
    intDec06Chars v2 =
      List.replicate (6 - (natDecChars v2.toNat).length) '0' ++
        natDecChars v2.toNat := by
  unfold intDec06Chars leftPad0
  rw [if_neg (by omega)]

theorem intDec06Chars_length (v2 : Int) (h0 : 0 ≤ v2) (h6 : v2 < 1000000) :
    (intDec06Chars v2).length = 6 := by
  rw [intDec06Chars_nonneg v2 h0]
  have hpow : (10:Nat) ^ 6 = 1000000 := by norm_num
  have hlen : (natDecChars v2.toNat).length ≤ 6 :=
    natDecChars_length_le _ 6 (by omega) (by omega)
  simp only [List.length_append, List.length_replicate]
  omega

theorem intDec06Chars_all_digit (v2 : Int) (h0 : 0 ≤ v2) :
    (intDec06Chars v2).all Char.isDigit = true := by
  rw [intDec06Chars_nonneg v2 h0, List.all_append]
  refine Bool.and_eq_true_iff.mpr ⟨?_, ?_⟩
  · rw [List.all_eq_true]
    intro c hc
    rw [List.eq_of_mem_replicate hc]
    rfl
  · rw [List.all_eq_true]
    exact natDecChars_all_digit _

theorem parseNat_intDec06Chars (v2 : Int) (h0 : 0 ≤ v2) :
    (parseNat (intDec06Chars v2) : Int) = v2 := by
  rw [intDec06Chars_nonneg v2 h0, parseNat_replicate_zero, parseNat_natDecChars]
  omega

theorem dropLit_append (lit rest : List Char) :
    dropLit lit (lit ++ rest) = some rest := by
  induction lit with
  | nil => rfl
  | cons c cs ih => simp [dropLit, ih]

theorem takeWhile_digits_dot (a rest : List Char)
    (ha : ∀ c ∈ a, c.isDigit = true) :
    (a ++ '.' :: rest).takeWhile Char.isDigit = a := by
  induction a with
  | nil => rfl
  | cons c a ih =>
    have hc : c.isDigit = true := ha c (by simp)
    rw [List.cons_append, List.takeWhile_cons, hc,
        ih fun x hx => ha x (by simp [hx])]
    rfl

theorem dropWhile_digits_dot (a rest : List Char)
    (ha : ∀ c ∈ a, c.isDigit = true) :
    (a ++ '.' :: rest).dropWhile Char.isDigit = '.' :: rest := by
  induction a with
  | nil => rfl
  | cons c a ih =>
    have hc : c.isDigit = true := ha c (by simp)
    rw [List.cons_append, List.dropWhile_cons, hc,
        ih fun x hx => ha x (by simp [hx])]
    rfl

theorem parsePairAux_format (neg : Bool) (a : List Char) (v2 : Int)
    (rest : List Char) (hne : a ≠ []) (had : ∀ c ∈ a, c.isDigit = true)
    (h0 : 0 ≤ v2) (h6 : v2 < 1000000) :
    parsePairAux neg (a ++ '.' :: (intDec06Chars v2 ++ rest)) =
      some (if neg then -(parseNat a : Int) else (parseNat a : Int),
            v2, rest) := by
  have hlen : (intDec06Chars v2).length = 6 := intDec06Chars_length v2 h0 h6
  unfold parsePairAux
  simp only [takeWhile_digits_dot a _ had, dropWhile_digits_dot a _ had,
    List.head?_cons, List.tail_cons,
    List.take_left' hlen, List.drop_left' hlen]
  rw [if_pos ⟨hne, trivial, hlen, intDec06Chars_all_digit v2 h0⟩,
      parseNat_intDec06Chars v2 h0]

theorem parsePair_format (v1 v2 : Int) (rest : List Char)
    (h0 : 0 ≤ v2) (h6 : v2 < 1000000) :
    parsePair (intDecChars v1 ++ '.' :: (intDec06Chars v2 ++ rest)) =
      some (v1, v2, rest) := by
  by_cases hv : v1 < 0
  · rw [show intDecChars v1 = '-' :: natDecChars v1.natAbs from by
      unfold intDecChars; rw [if_pos hv]]
    unfold parsePair
    rw [List.cons_append]
    simp only [List.head?_cons, List.tail_cons, if_pos rfl]
    rw [parsePairAux_format true _ v2 rest (natDecChars_ne_nil _)
      (natDecChars_all_digit _) h0 h6]
    simp only [if_true, Option.some.injEq, Prod.mk.injEq,
      parseNat_natDecChars]
    exact ⟨by omega, trivial⟩
  · rw [show intDecChars v1 = natDecChars v1.toNat from by
      unfold intDecChars; rw [if_neg hv]]
    unfold parsePair
    obtain ⟨c, cs, hcons⟩ : ∃ c cs, natDecChars v1.toNat = c :: cs := by
      cases h : natDecChars v1.toNat with
      | nil => exact absurd h (natDecChars_ne_nil _)
      | cons c cs => exact ⟨c, cs, rfl⟩
    have hcdig : c.isDigit = true :=
      natDecChars_all_digit _ c (by rw [hcons]; simp)
    have hcne :
        ¬((natDecChars v1.toNat ++
            '.' :: (intDec06Chars v2 ++ rest)).head? = some '-') := by
      rw [hcons]
      simp only [List.cons_append, List.head?_cons, Option.some.injEq]
      intro hcc
      rw [hcc] at hcdig
      exact absurd hcdig (by decide)
    rw [if_neg hcne]
    rw [parsePairAux_format false _ v2 rest (natDecChars_ne_nil _)
      (natDecChars_all_digit _) h0 h6]
    simp only [Bool.false_eq_true, if_false, Option.some.injEq,
      Prod.mk.injEq, parseNat_natDecChars]
    exact ⟨by omega, trivial⟩

theorem parseBody_okChars (r : SensorReading)
    (ft0 : 0 ≤ r.temp.val2) (ft6 : r.temp.val2 < 1000000)
    (fp0 : 0 ≤ r.press.val2) (fp6 : r.press.val2 < 1000000)
    (fh0 : 0 ≤ r.humidity.val2) (fh6 : r.humidity.val2 < 1000000) :
    parseBody (okChars r) = some r := by
  unfold parseBody okChars
  rw [dropLit_append okLit1 _]
  simp only [Option.some_bind]
  rw [parsePair_format r.temp.val1 r.temp.val2 _ ft0 ft6]
  simp only [Option.some_bind]
  rw [dropLit_append okLit2 _]
  simp only [Option.some_bind]
  rw [parsePair_format r.press.val1 r.press.val2 _ fp0 fp6]
  simp only [Option.some_bind]
  rw [dropLit_append okLit3 _]
  simp only [Option.some_bind]
  rw [parsePair_format r.humidity.val1 r.humidity.val2 _ fh0 fh6]
  simp only [Option.some_bind]
  rw [show dropLit okLit4 okLit4 = some [] from by
    have h := dropLit_append okLit4 []
    rwa [List.append_nil] at h]
  simp only [Option.some_bind, if_pos rfl]
  rfl

/-! ## Length bounds for the formatted response -/

theorem intDecChars_length_le (i : Int) (h : int32Range i) :
    (intDecChars i).length ≤ 11 := by
  unfold intDecChars int32Range at *
  have hpow : (10:Nat) ^ 10 = 10000000000 := by norm_num
  by_cases hv : i < 0
  · rw [if_pos hv]
    have hlt : i.natAbs < 10 ^ 10 := by omega
    have := natDecChars_length_le i.natAbs 10 (by omega) hlt
    simp only [List.length_cons]
    omega
  · rw [if_neg hv]
    have hlt : i.toNat < 10 ^ 10 := by omega
    have := natDecChars_length_le i.toNat 10 (by omega) hlt
    omega

theorem okChars_length_le (r : SensorReading)
    (ht : int32Range r.temp.val1) (hp : int32Range r.press.val1)
    (hh : int32Range r.humidity.val1)
    (ft0 : 0 ≤ r.temp.val2) (ft6 : r.temp.val2 < 1000000)
    (fp0 : 0 ≤ r.press.val2) (fp6 : r.press.val2 < 1000000)
    (fh0 : 0 ≤ r.humidity.val2) (fh6 : r.humidity.val2 < 1000000) :
    (okChars r).length ≤ 253 := by
  have l1 : okLit1.length = 139 := rfl
  have l2 : okLit2.length = 19 := rfl
  have l3 : okLit3.length = 21 := rfl
  have l4 : okLit4.length = 20 := rfl
  have e1 := intDecChars_length_le r.temp.val1 ht
  have e2 := intDecChars_length_le r.press.val1 hp
  have e3 := intDecChars_length_le r.humidity.val1 hh
  have p1 := intDec06Chars_length r.temp.val2 ft0 ft6
  have p2 := intDec06Chars_length r.press.val2 fp0 fp6
  have p3 := intDec06Chars_length r.humidity.val2 fh0 fh6
  simp only [okChars, List.length_append, List.length_cons]
  omega

/-- C7: for every Reading with int32 integer parts and six-digit
fractional parts (each fractional component in 0..999999), formatting the
Reading into the response sent by `handle_client` and then parsing the
three decimal pairs back out of that body reproduces the original integer
and fractional values of all three fields exactly. -/
theorem response_roundtrip (r : SensorReading)
    (ht : int32Range r.temp.val1) (hp : int32Range r.press.val1)
    (hh : int32Range r.humidity.val1)
    (ft0 : 0 ≤ r.temp.val2) (ft6 : r.temp.val2 < 1000000)
    (fp0 : 0 ≤ r.press.val2) (fp6 : r.press.val2 < 1000000)
    (fh0 : 0 ≤ r.humidity.val2) (fh6 : r.humidity.val2 < 1000000) :
    parseBody (okResponse r).data = some r := by
  have hlen : (okChars r).length ≤ 253 :=
    okChars_length_le r ht hp hh ft0 ft6 fp0 fp6 fh0 fh6
  rw [show (okResponse r).data = (okChars r).take 255 from rfl,
      List.take_of_length_le (by omega)]
  exact parseBody_okChars r ft0 ft6 fp0 fp6 fh0 fh6

/-- Closed instance of the round-trip theorem at the spec's example
reading (23, 456000), (101, 325000), (45, 120000). -/
theorem response_roundtrip_witness :
    int32Range r0.temp.val1 ∧ int32Range r0.press.val1 ∧
    int32Range r0.humidity.val1 ∧
    (0 ≤ r0.temp.val2 ∧ r0.temp.val2 < 1000000) ∧
    (0 ≤ r0.press.val2 ∧ r0.press.val2 < 1000000) ∧
    (0 ≤ r0.humidity.val2 ∧ r0.humidity.val2 < 1000000) ∧
    parseBody (okResponse r0).data = some r0 :=
  ⟨by decide, by decide, by decide, by decide, by decide, by decide,
   response_roundtrip r0 (by decide) (by decide) (by decide) (by decide)
     (by decide) (by decide) (by decide) (by decide) (by decide)⟩

/-- C8 (amended): for every Reading whose fractional components are
six-digit (0..999999) and whose integer components are int32, the full
200 response is at most 255 characters, so it fits in the 256-byte
`response` buffer without truncation and the bytes sent are the complete
formatted response.  (The unrestricted claim is false: see the
counterexample theorem.) -/
theorem okResponse_fits_sixdigit (r : SensorReading)
    (ht : int32Range r.temp.val1) (hp : int32Range r.press.val1)
    (hh : int32Range r.humidity.val1)
    (ft0 : 0 ≤ r.temp.val2) (ft6 : r.temp.val2 < 1000000)
    (fp0 : 0 ≤ r.press.val2) (fp6 : r.press.val2 < 1000000)
    (fh0 : 0 ≤ r.humidity.val2) (fh6 : r.humidity.val2 < 1000000) :
    (okChars r).length ≤ 255 ∧ okResponse r = okResponseFull r ∧
    ∀ sendRet : Int,
      handle_client true r sendRet =
        [NetEvent.send (okResponseFull r), NetEvent.close] := by
  have hlen : (okChars r).length ≤ 253 :=
    okChars_length_le r ht hp hh ft0 ft6 fp0 fp6 fh0 fh6
  have heq : okResponse r = okResponseFull r := by
    unfold okResponse okResponseFull
    rw [List.take_of_length_le (by omega)]
  refine ⟨by omega, heq, fun sendRet => ?_⟩
  rw [show handle_client true r sendRet =
    [NetEvent.send (okResponse r), NetEvent.close] from rfl, heq]

/-- Closed instance of the no-truncation theorem at the spec's example
reading. -/
theorem okResponse_fits_sixdigit_witness :
    (okChars r0).length ≤ 255 ∧ okResponse r0 = okResponseFull r0 :=
  ⟨(okResponse_fits_sixdigit r0 (by decide) (by decide) (by decide)
      (by decide) (by decide) (by decide) (by decide) (by decide)
      (by decide)).1,
   (okResponse_fits_sixdigit r0 (by decide) (by decide) (by decide)
      (by decide) (by decide) (by decide) (by decide) (by decide)
      (by decide)).2.1⟩

set_option maxRecDepth 40000 in
/-- C8 as stated is false: the claim quantifies over every Reading stored
in `latest_reading`, but the design publishes unvalidated int32 channel
values, and at the INT32_MIN reading the formatted response is 268
characters — more than the 255 usable bytes of the 256-byte buffer — so
`snprintf` truncates and the bytes sent are not the complete response. -/
theorem okResponse_truncation_counterexample :
    (okChars rBad).length = 268 ∧ ¬((okChars rBad).length ≤ 255) ∧
    okResponse rBad ≠ okResponseFull rBad :=
  ⟨by decide, by decide, by decide⟩

set_option maxRecDepth 20000 in
/-- C3 (amended): for every Reading with int32 integer parts and six-digit
fractional parts (0..999999), the successful response sent by
`handle_client` is exactly the 200 status line, the
`Content-Type: text/html` header, a blank line, and the HTML body
rendering each field as the integer part (`%d`), a dot, and the
fractional part as exactly six decimal digit characters (`%06d`); in
particular for the reading (23, 456000), (101, 325000), (45, 120000) the
response is the exact literal whose body contains exactly the substrings
`Temperature: 23.456000 C`, `Pressure: 101.325000 kPa` and
`Humidity: 45.120000 %`.  (The claim unrestricted over all Readings fails
by truncation: see the counterexample theorem.) -/
theorem handle_client_200_format (r : SensorReading)
    (ht : int32Range r.temp.val1) (hp : int32Range r.press.val1)
    (hh : int32Range r.humidity.val1)
    (ft0 : 0 ≤ r.temp.val2) (ft6 : r.temp.val2 < 1000000)
    (fp0 : 0 ≤ r.press.val2) (fp6 : r.press.val2 < 1000000)
    (fh0 : 0 ≤ r.humidity.val2) (fh6 : r.humidity.val2 < 1000000) :
    (∀ sendRet : Int,
      handle_client true r sendRet =
        [NetEvent.send (String.mk
          (("HTTP/1.1 200 OK\r\nContent-Type: text/html\r\n\r\n" ++
            "<html><head><title>Weather Station</title></head>" ++
            "<body><h1>Weather Station</h1><p>Temperature: ").data ++
           (intDecChars r.temp.val1 ++ ('.' ::
            (intDec06Chars r.temp.val2 ++ (" C</p><p>Pressure: ".data ++
             (intDecChars r.press.val1 ++ ('.' ::
              (intDec06Chars r.press.val2 ++ (" kPa</p><p>Humidity: ".data ++
               (intDecChars r.humidity.val1 ++ ('.' ::
                (intDec06Chars r.humidity.val2 ++
                 " %</p></body></html>".data))))))))))))),
         NetEvent.close]) ∧
    ((intDec06Chars r.temp.val2).length = 6 ∧
      (intDec06Chars r.temp.val2).all Char.isDigit = true) ∧
    ((intDec06Chars r.press.val2).length = 6 ∧
      (intDec06Chars r.press.val2).all Char.isDigit = true) ∧
    ((intDec06Chars r.humidity.val2).length = 6 ∧
      (intDec06Chars r.humidity.val2).all Char.isDigit = true) ∧
    (∀ sendRet : Int,
      handle_client true r0 sendRet =
        [NetEvent.send
          ("HTTP/1.1 200 OK\r\nContent-Type: text/html\r\n\r\n" ++
           "<html><head><title>Weather Station</title></head>" ++
           "<body><h1>Weather Station</h1>" ++
           "<p>Temperature: 23.456000 C</p>" ++
           "<p>Pressure: 101.325000 kPa</p>" ++
           "<p>Humidity: 45.120000 %</p>" ++
           "</body></html>"),
         NetEvent.close]) ∧
    (∃ a b : String, okResponse r0 = a ++ "Temperature: 23.456000 C" ++ b) ∧
    (∃ a b : String, okResponse r0 = a ++ "Pressure: 101.325000 kPa" ++ b) ∧
    (∃ a b : String, okResponse r0 = a ++ "Humidity: 45.120000 %" ++ b) := by
  have hlen : (okChars r).length ≤ 253 :=
    okChars_length_le r ht hp hh ft0 ft6 fp0 fp6 fh0 fh6
  have heq : okResponse r = okResponseFull r := by
    unfold okResponse okResponseFull
    rw [List.take_of_length_le (by omega)]
  have hresp : okResponse r0 =
      "HTTP/1.1 200 OK\r\nContent-Type: text/html\r\n\r\n" ++
      "<html><head><title>Weather Station</title></head>" ++
      "<body><h1>Weather Station</h1>" ++
      "<p>Temperature: 23.456000 C</p>" ++
      "<p>Pressure: 101.325000 kPa</p>" ++
      "<p>Humidity: 45.120000 %</p>" ++
      "</body></html>" := by decide
  refine ⟨fun sendRet => ?_,
    ⟨intDec06Chars_length r.temp.val2 ft0 ft6,
     intDec06Chars_all_digit r.temp.val2 ft0⟩,
    ⟨intDec06Chars_length r.press.val2 fp0 fp6,
     intDec06Chars_all_digit r.press.val2 fp0⟩,
    ⟨intDec06Chars_length r.humidity.val2 fh0 fh6,
     intDec06Chars_all_digit r.humidity.val2 fh0⟩,
    fun sendRet => by
      rw [show handle_client true r0 sendRet =
        [NetEvent.send (okResponse r0), NetEvent.close] from rfl, hresp],
    ?_, ?_, ?_⟩
  · rw [show handle_client true r sendRet =
      [NetEvent.send (okResponse r), NetEvent.close] from rfl, heq]
    rfl
  · refine ⟨"HTTP/1.1 200 OK\r\nContent-Type: text/html\r\n\r\n" ++
      "<html><head><title>Weather Station</title></head>" ++
      "<body><h1>Weather Station</h1><p>", "</p><p>Pressure: 101.325000 kPa" ++
      "</p><p>Humidity: 45.120000 %</p></body></html>", ?_⟩
    rw [hresp]; decide
  · refine ⟨"HTTP/1.1 200 OK\r\nContent-Type: text/html\r\n\r\n" ++
      "<html><head><title>Weather Station</title></head>" ++
      "<body><h1>Weather Station</h1><p>Temperature: 23.456000 C</p><p>",
      "</p><p>Humidity: 45.120000 %</p></body></html>", ?_⟩
    rw [hresp]; decide
  · refine ⟨"HTTP/1.1 200 OK\r\nContent-Type: text/html\r\n\r\n" ++
      "<html><head><title>Weather Station</title></head>" ++
      "<body><h1>Weather Station</h1><p>Temperature: 23.456000 C</p>" ++
      "<p>Pressure: 101.325000 kPa</p><p>",
      "</p></body></html>", ?_⟩
    rw [hresp]; decide

/-- Closed instance of the amended 200-format theorem at the spec's
example reading. -/
theorem handle_client_200_format_witness :
    int32Range r0.temp.val1 ∧ int32Range r0.press.val1 ∧
    int32Range r0.humidity.val1 ∧
    (0 ≤ r0.temp.val2 ∧ r0.temp.val2 < 1000000) ∧
    (0 ≤ r0.press.val2 ∧ r0.press.val2 < 1000000) ∧
    (0 ≤ r0.humidity.val2 ∧ r0.humidity.val2 < 1000000) ∧
    handle_client true r0 0 =
      [NetEvent.send (okResponseFull r0), NetEvent.close] :=
  ⟨by decide, by decide, by decide, by decide, by decide, by decide,
   (handle_client_200_format r0 (by decide) (by decide) (by decide)
      (by decide) (by decide) (by decide) (by decide) (by decide)
      (by decide)).1 0⟩

set_option maxRecDepth 40000 in
/-- C3 as stated (universal over every Reading snapshot) is false: at the
INT32_MIN reading the formatted response is 268 characters, `snprintf`
truncates it to the buffer's 255 usable bytes, and the bytes
`handle_client` sends are not the fully rendered page — the body is cut
off before the closing tags. -/
theorem handle_client_200_format_counterexample :
    handle_client true rBad 0 ≠
      [NetEvent.send (okResponseFull rBad), NetEvent.close] := by
  decide

/-! ## The interleaving model never shows a torn reading -/

theorem MInv_mInit : MInv mInit :=
  ⟨fun h => absurd h (by decide), fun _ => rfl, fun h => absurd h (by decide)⟩

theorem MStep_preserves_MInv {s s' : MState} (st : MStep s s') (hs : MInv s) :
    MInv s' := by
  obtain ⟨hA, hB, hC⟩ := hs
  cases st with
  | wAcquire v hown =>
    have hlat : s.latest = s.lastPub := hB (by rw [hown]; exact (by decide))
    unfold MInv
    dsimp only
    exact ⟨fun _ => ⟨fun _ => hlat, fun h => by omega, fun h => by omega,
      fun h => by omega, by decide⟩,
      fun h => absurd rfl h, fun h => absurd h (by decide)⟩
  | wTemp hown hpc =>
    obtain ⟨a0, _, _, _, _⟩ := hA hown
    unfold MInv
    dsimp only
    refine ⟨fun _ => ⟨fun h => by omega, fun _ => ?_, fun h => by omega,
      fun h => by omega, by decide⟩,
      fun h => absurd hown h,
      fun h => absurd (hown.symm.trans h) (by decide)⟩
    rw [a0 hpc]
  | wPress hown hpc =>
    obtain ⟨_, a1, _, _, _⟩ := hA hown
    unfold MInv
    dsimp only
    refine ⟨fun _ => ⟨fun h => by omega, fun h => by omega, fun _ => ?_,
      fun h => by omega, by decide⟩,
      fun h => absurd hown h,
      fun h => absurd (hown.symm.trans h) (by decide)⟩
    rw [a1 hpc]
  | wHum hown hpc =>
    obtain ⟨_, _, a2, _, _⟩ := hA hown
    unfold MInv
    dsimp only
    refine ⟨fun _ => ⟨fun h => by omega, fun h => by omega, fun h => by omega,
      fun _ => ?_, by decide⟩,
      fun h => absurd hown h,
      fun h => absurd (hown.symm.trans h) (by decide)⟩
    rw [a2 hpc]
  | wRelease hown hpc =>
    obtain ⟨_, _, _, a3, _⟩ := hA hown
    unfold MInv
    dsimp only
    exact ⟨fun h => absurd h (by decide), fun _ => a3 hpc,
      fun h => absurd h (by decide)⟩
  | rAcquire hown =>
    have hlat : s.latest = s.lastPub := hB (by rw [hown]; exact (by decide))
    unfold MInv
    dsimp only
    exact ⟨fun h => absurd h (by decide), fun _ => hlat,
      fun _ => ⟨fun h => by omega, fun h => by omega, fun h => by omega⟩⟩
  | rTemp hown hpc =>
    have hlat : s.latest = s.lastPub := hB (by rw [hown]; exact (by decide))
    unfold MInv
    dsimp only
    refine ⟨fun h => absurd (hown.symm.trans h) (by decide), fun _ => hlat,
      fun _ => ⟨fun _ => ?_, fun h => by omega, fun h => by omega⟩⟩
    rw [hlat]
  | rPress hown hpc =>
    have hlat : s.latest = s.lastPub := hB (by rw [hown]; exact (by decide))
    obtain ⟨c1, _, _⟩ := hC hown
    unfold MInv
    dsimp only
    refine ⟨fun h => absurd (hown.symm.trans h) (by decide), fun _ => hlat,
      fun _ => ⟨fun h => by omega, fun _ => ⟨c1 hpc, ?_⟩, fun h => by omega⟩⟩
    rw [hlat]
  | rHum hown hpc =>
    have hlat : s.latest = s.lastPub := hB (by rw [hown]; exact (by decide))
    obtain ⟨_, c2, _⟩ := hC hown
    unfold MInv
    dsimp only
    refine ⟨fun h => absurd (hown.symm.trans h) (by decide), fun _ => hlat,
      fun _ => ⟨fun h => by omega, fun h => by omega, fun _ => ?_⟩⟩
    obtain ⟨ht, hpr⟩ := c2 hpc
    apply SensorReading.ext
    · exact ht
    · exact hpr
    · show s.latest.humidity = s.lastPub.humidity
      rw [hlat]
  | rRelease hown hpc =>
    have hlat : s.latest = s.lastPub := hB (by rw [hown]; exact (by decide))
    unfold MInv
    dsimp only
    exact ⟨fun h => absurd h (by decide), fun _ => hlat,
      fun h => absurd h (by decide)⟩

theorem MReach_MInv {s : MState} (h : MReach s) : MInv s := by
  induction h with
  | init => exact MInv_mInit
  | step _ st ih => exact MStep_preserves_MInv st ih

/-- C6: under the mutex, a reader never observes a torn mix of fields.
In every reachable state of the interleaving model in which the reader has
completed its three field copies of `latest_reading` (still inside its
critical section), the copy equals the last completely published reading —
field-granular writer updates are never visible partially, so a read
observes the prior reading or the newly published one in full. -/
theorem reader_copy_never_torn (s : MState) (hreach : MReach s)
    (hr : s.owner = some Tid.reader) (hrpc : s.rpc = 3) :
    s.racc = s.lastPub :=
  ((MReach_MInv hreach).2.2 hr).2.2 hrpc

/-- Closed instance: a full write of the sample (1,2),(3,4),(5,6) followed
by a full read reaches a state where the completed copy equals that
published sample. -/
theorem reader_copy_never_torn_witness :
    MReach ⟨vSample, some Tid.reader, 3, vSample, 3, vSample, vSample⟩ ∧
    (⟨vSample, some Tid.reader, 3, vSample, 3, vSample, vSample⟩ :
        MState).racc =
      (⟨vSample, some Tid.reader, 3, vSample, 3, vSample, vSample⟩ :
        MState).lastPub := by
  have h0 : MReach mInit := MReach.init
  have h1 : MReach ⟨defaultReading, some Tid.writer, 0, vSample, 0,
      defaultReading, defaultReading⟩ :=
    MReach.step h0 (MStep.wAcquire _ vSample rfl)
  have h2 : MReach ⟨⟨⟨1, 2⟩, ⟨0, 0⟩, ⟨0, 0⟩⟩, some Tid.writer, 1, vSample, 0,
      defaultReading, defaultReading⟩ :=
    MReach.step h1 (MStep.wTemp _ rfl rfl)
  have h3 : MReach ⟨⟨⟨1, 2⟩, ⟨3, 4⟩, ⟨0, 0⟩⟩, some Tid.writer, 2, vSample, 0,
      defaultReading, defaultReading⟩ :=
    MReach.step h2 (MStep.wPress _ rfl rfl)
  have h4 : MReach ⟨vSample, some Tid.writer, 3, vSample, 0,
      defaultReading, defaultReading⟩ :=
    MReach.step h3 (MStep.wHum _ rfl rfl)
  have h5 : MReach ⟨vSample, none, 3, vSample, 0,
      defaultReading, vSample⟩ :=
    MReach.step h4 (MStep.wRelease _ rfl rfl)
  have h6 : MReach ⟨vSample, some Tid.reader, 3, vSample, 0,
      defaultReading, vSample⟩ :=
    MReach.step h5 (MStep.rAcquire _ rfl)
  have h7 : MReach ⟨vSample, some Tid.reader, 3, vSample, 1,
      ⟨⟨1, 2⟩, ⟨0, 0⟩, ⟨0, 0⟩⟩, vSample⟩ :=
    MReach.step h6 (MStep.rTemp _ rfl rfl)
  have h8 : MReach ⟨vSample, some Tid.reader, 3, vSample, 2,
      ⟨⟨1, 2⟩, ⟨3, 4⟩, ⟨0, 0⟩⟩, vSample⟩ :=
    MReach.step h7 (MStep.rPress _ rfl rfl)
  have h9 : MReach ⟨vSample, some Tid.reader, 3, vSample, 3,
      vSample, vSample⟩ :=
    MReach.step h8 (MStep.rHum _ rfl rfl)
  exact ⟨h9, reader_copy_never_torn _ h9 rfl rfl⟩
